import Mathlib

/-!
Verification development for the `sendMention` module of this repository
(`src/includes/h/Extra/ExtraUptimeRobot.js`, second embedded file): a shallow
embedding of the mention-offset resolver (`buildMentionData`), the
request/acknowledgment correlator (`publishWithAck` / `handleRes`), and the
`sendMention` entry point, together with theorems about them.

Modelling conventions:
- JS strings are modelled as `List Char` (offsets in code units; the examples
  involved are ASCII, where Lean's `Char.toLower` agrees with JS
  `toLowerCase`).
- JS `indexOf`, `lastIndexOf`, `substring`, `trim`, the word-boundary regex of
  strategy 4, and the link regex of `hasLinks` are modelled executably below.
- `JSON.stringify` round-trips are not modelled: payloads stay structured.
- The event-driven runtime (single-threaded callback dispatch, promises that
  settle on the first resolve/reject call, `EventEmitter` listeners invoked
  only while registered) is modelled as a step function over an explicit
  state, driven by a list of events.
-/

namespace MiraiV3

/-! ## JS string primitives -/

/-- JS whitespace test used by `String.prototype.trim` (ASCII fragment). -/
def isJsSpace (c : Char) : Bool :=
  c = ' ' || c = '\t' || c = '\n' || c = '\r'

/-- JS `String.prototype.trim`: drop whitespace at both ends. -/
def jsTrim (l : List Char) : List Char :=
  ((l.dropWhile isJsSpace).reverse.dropWhile isJsSpace).reverse

/-- JS `String.prototype.toLowerCase` (ASCII fragment). -/
def toLowerL (l : List Char) : List Char :=
  l.map Char.toLower

/-- `occursAt s pat i`: `pat` occurs in `s` starting at position `i`. -/
def occursAt (s pat : List Char) (i : Nat) : Bool :=
  decide ((s.drop i).take pat.length = pat)

/-- JS `s.indexOf(pat, start)`: first occurrence of `pat` at or after
`start` (`start` clamped to the string length); `none` for JS `-1`. -/
def jsIndexOfFrom (s pat : List Char) (start : Nat) : Option Nat :=
  (List.range (s.length + 1)).find? (fun i =>
    decide (min start s.length ≤ i) && occursAt s pat i)

/-- JS `s.lastIndexOf(pat)`: last occurrence of `pat` anywhere in `s`. -/
def jsLastIndexOf (s pat : List Char) : Option Nat :=
  ((List.range (s.length + 1)).filter (fun i => occursAt s pat i)).getLast?

/-- JS regex `\w`: `[A-Za-z0-9_]`. -/
def isWordChar (c : Char) : Bool :=
  c.isAlpha || c.isDigit || c = '_'

/-- Is the character at position `i` of `s` a word character
(out-of-range counts as non-word)? -/
def wordCharAt (s : List Char) (i : Nat) : Bool :=
  match s.get? i with
  | some c => isWordChar c
  | none => false

/-- JS regex `\b` at position `i` of `s`: word-ness differs between the
character before `i` and the character at `i`. -/
def jsWordBoundary (s : List Char) (i : Nat) : Bool :=
  (if i = 0 then false else wordCharAt s (i - 1)) != wordCharAt s i

/-- Strategy 4 of `buildMentionData`: leftmost case-insensitive match of
the escaped literal `name` with `\b` on both sides, inside `sub`
(the regex runs on `base.substring(start)`); returns `match.index`. -/
def wbFind (sub name : List Char) : Option Nat :=
  (List.range (sub.length + 1)).find? (fun j =>
    occursAt (toLowerL sub) (toLowerL name) j
      && jsWordBoundary sub j && jsWordBoundary sub (j + name.length))

/-- The `hasLinks` helper: the alternatives of the link regex, tested
case-insensitively as substrings. -/
def jsHasLinks (s : String) : Bool :=
  ["http://", "https://", "www.", "t.me/", "fb.me/", "youtu.be/",
    "facebook.com/", "youtube.com/"].any (fun pat =>
      (jsIndexOfFrom (toLowerL s.data) pat.data 0).isSome)

/-! ## Mention data model (`buildMentionData`) -/

/-- One element of the `mentions` array: `tag` and `id` as (possibly
absent) strings, `fromIndex` present only when `Number.isInteger(m.fromIndex)`
holds in the source. -/
structure Mention where
  tag : Option String
  id : Option String
  fromIndex : Option Int
  deriving DecidableEq

/-- The `mentions` field of a message: absent, present but not an array,
or an array. -/
inductive MentionsField where
  | missing
  | notArray
  | arr (l : List Mention)
  deriving DecidableEq

/-- The coerced message object `m`: `body` (already coerced to a string
when non-null), `attachment` (opaque; only null-ness matters), `mentions`. -/
structure MsgObj where
  body : Option String
  attachment : Option String
  mentions : MentionsField
  deriving DecidableEq

/-- The `mention_data` record returned by `buildMentionData`. -/
structure MentionData where
  mention_ids : String
  mention_offsets : String
  mention_lengths : String
  mention_types : String
  deriving DecidableEq

/-- `raw` and `name` computed at the top of the mention loop:
`raw = String(m.tag || "").trim()`, `name = raw.replace(/^@+/, "").trim()`. -/
def mentionName (m : Mention) : List Char × List Char :=
  let raw := jsTrim (m.tag.getD "").data
  (raw, jsTrim (raw.dropWhile (fun c => c = '@')))

/-- `String(m.id || 0)`: absent or empty id coerces to `"0"`. -/
def jsIdString (id : Option String) : String :=
  match id with
  | some s => if s = "" then "0" else s
  | none => "0"

/-- The last-resort branch of the search chain:
`idx = base.lastIndexOf(name); if (idx === -1) idx = Math.max(cursor, base.length); adj = 0`. -/
def lastResort (base name : List Char) (cursor : Nat) : Int × Int :=
  match jsLastIndexOf base name with
  | some i => ((i : Int), 0)
  | none => (max (cursor : Int) (base.length : Int), 0)

/-- The search-strategy chain of `buildMentionData`, returning `(idx, adj)`
(`idx` as in JS, where a fractional/negative `start` only matters through
clamping; `start.toNat` is the clamp used by `indexOf`/`substring`):
1. exact match of `raw` when it starts with `@` (sets `adj` past the `@`s);
2. exact match of `name`;
3. case-insensitive match of `name`;
4. case-insensitive word-boundary regex match on `base.substring(start)`,
   with `idx = start + match.index` (unclamped `start`, as in JS);
5. if `idx` is still negative, `lastIndexOf` / cursor-or-length fallback. -/
def resolveIdxAdj (base raw name : List Char) (start : Int) (cursor : Nat) :
    Int × Int :=
  match (if raw.head? = some '@' then jsIndexOfFrom base raw start.toNat
         else none) with
  | some i => ((i : Int), (raw.length : Int) - (name.length : Int))
  | none =>
    match jsIndexOfFrom base name start.toNat with
    | some i => ((i : Int), 0)
    | none =>
      match jsIndexOfFrom (toLowerL base) (toLowerL name) start.toNat with
      | some i => ((i : Int), 0)
      | none =>
        match wbFind (base.drop start.toNat) name with
        | some j =>
          if start + (j : Int) < 0 then lastResort base name cursor
          else (start + (j : Int), 0)
        | none => lastResort base name cursor

/-- The mention loop of `buildMentionData`: for each mention, compute
`(String(m.id || 0), off, name.length)` and advance the shared cursor to
`off + name.length`; mentions with an empty `name` are skipped. -/
def buildTriples (base : List Char) (ms : List Mention) (cursor : Nat) :
    List (String × Nat × Nat) :=
  match ms with
  | [] => []
  | m :: rest =>
    let rn := mentionName m
    let raw := rn.1
    let name := rn.2
    if name.isEmpty then buildTriples base rest cursor
    else
      let start : Int := match m.fromIndex with
        | some i => i
        | none => (cursor : Int)
      let ia := resolveIdxAdj base raw name start cursor
      let off := (max 0 (ia.1 + ia.2)).toNat
      (jsIdString m.id, off, name.length) :: buildTriples base rest (off + name.length)

/-- `buildMentionData(msg, baseBody)`: `null` when `mentions` is missing,
not an array, or empty, or when every mention was skipped; otherwise the
comma-joined id/offset/length/type strings. -/
def buildMentionData (msg : MsgObj) (baseBody : String) : Option MentionData :=
  match msg.mentions with
  | .arr l =>
    if l.isEmpty then none
    else
      let triples := buildTriples baseBody.data l 0
      if triples.isEmpty then none
      else some {
        mention_ids := String.intercalate "," (triples.map (fun t => t.1)),
        mention_offsets := String.intercalate "," (triples.map (fun t => toString t.2.1)),
        mention_lengths := String.intercalate "," (triples.map (fun t => toString t.2.2)),
        mention_types := String.intercalate "," (triples.map (fun _ => "p")) }
  | _ => none

/-! ## Response payload model (`extractIdsFromPayload`) -/

/-- A decoded JSON value as handled by the response walker (integers stand
in for JS numbers; `undef` is JS `undefined`, e.g. an out-of-range index). -/
inductive JVal where
  | null
  | undef
  | num (n : Int)
  | str (s : String)
  | arr (l : List JVal)
  | obj (fields : List (String × JVal))

/-- Property access `v.key` (through `?.`): `undefined` unless `v` is an
object with that field. -/
def jsGet (v : JVal) (key : String) : JVal :=
  match v with
  | .obj fs =>
    match fs.find? (fun p => p.1 == key) with
    | some p => p.2
    | none => .undef
  | _ => .undef

mutual

/-- JS `String(v)` for decoded values (integer numbers; arrays join their
elements with `,`, rendering `null`/`undefined` elements as empty). -/
def jsToString : JVal → String
  | .null => "null"
  | .undef => "undefined"
  | .num n => toString n
  | .str s => s
  | .obj _ => "[object Object]"
  | .arr l => String.intercalate "," (jsToStringElems l)

/-- Stringification of array elements for `jsToString`. -/
def jsToStringElems : List JVal → List String
  | [] => []
  | x :: xs =>
    (match x with
     | .null => ""
     | .undef => ""
     | v => jsToString v) :: jsToStringElems xs

end

/-- The mutable `{ messageID, threadID }` pair of `extractIdsFromPayload`. -/
structure ExtractedIds where
  messageID : Option String
  threadID : Option String
  deriving DecidableEq

/-- The two node checks performed by `walk` on an array node `n`:
`n[0] === 5 && (n[1] === "replaceOptimsiticMessage" || n[1] === "replaceOptimisticMessage")`
sets `messageID = String(n[3])`;
`n[0] === 5 && n[1] === "writeCTAIdToThreadsTable"` with `n[2]` an array
whose head is `19` sets `threadID = String(n[2][1])`. -/
def nodeCheck (l : List JVal) (st : ExtractedIds) : ExtractedIds :=
  let st1 :=
    match l.get? 0, l.get? 1 with
    | some (.num 5), some (.str op) =>
      if op = "replaceOptimsiticMessage" ∨ op = "replaceOptimisticMessage" then
        { st with messageID := some (jsToString (l.getD 3 .undef)) }
      else st
    | _, _ => st
  match l.get? 0, l.get? 1 with
  | some (.num 5), some (.str op) =>
    if op = "writeCTAIdToThreadsTable" then
      match l.get? 2 with
      | some (.arr a) =>
        match a.get? 0 with
        | some (.num 19) => { st1 with threadID := some (jsToString (a.getD 1 .undef)) }
        | _ => st1
      | _ => st1
    else st1
  | _, _ => st1

mutual

/-- The recursive `walk` of `extractIdsFromPayload`: non-arrays are ignored;
on an array, run the node checks and then walk every element in order. -/
def walk (st : ExtractedIds) : JVal → ExtractedIds
  | .arr l => walkList (nodeCheck l st) l
  | _ => st

/-- Walk a list of child nodes left to right. -/
def walkList (st : ExtractedIds) : List JVal → ExtractedIds
  | [] => st
  | x :: xs => walkList (walk st x) xs

end

/-- `extractIdsFromPayload(payload)`: walk `payload?.step` starting from
`{ messageID: null, threadID: null }`. -/
def extractIdsFromPayload (payload : JVal) : ExtractedIds :=
  walk { messageID := none, threadID := none } (jsGet payload "step")

/-! ## Request/acknowledgment correlator (`publishWithAck`) -/

/-- An inbound frame on the response channel, classified by its two-stage
decode outcome: the outer `JSON.parse` throws, the nested
`JSON.parse(jsonMsg.payload)` throws, or both succeed yielding a
`request_id` and a decoded payload. -/
inductive InMsg where
  | badOuter
  | badPayload
  | ok (request_id : Int) (payload : JVal)

/-- The `bodies` object a successful acknowledgment settles with:
`{ body: text || null, messageID, threadID }`. -/
structure Bodies where
  body : Option String
  messageID : Option String
  threadID : Option String
  deriving DecidableEq

/-- The `handleRes` listener as a pure function from an inbound frame to
an optional settlement value: skip other topics, skip frames that fail
either decode stage, skip mismatched `request_id`; on a match, extract the
ids and build the `bodies` object. -/
def handleRes (reqID : Int) (text : String) (topic : String) (m : InMsg) :
    Option Bodies :=
  if topic ≠ "/ls_resp" then none
  else
    match m with
    | .badOuter => none
    | .badPayload => none
    | .ok rid payload =>
      if rid ≠ reqID then none
      else
        let ids := extractIdsFromPayload payload
        some { body := if text = "" then none else some text,
               messageID := ids.messageID, threadID := ids.threadID }

/-- How one `publishWithAck` call's deferred result settled. -/
inductive Outcome where
  | ok (b : Bodies)
  | errPublish
  | errTimeout
  deriving DecidableEq

/-- The per-call state of `publishWithAck` after its synchronous setup:
the `done` flag, whether `handleRes` is still registered on the transport,
the promise's settlement (`none` while pending; a JS promise keeps the
first settlement), and listener attach/remove counters. -/
structure AckState where
  done : Bool
  listenerOn : Bool
  settled : Option Outcome
  attachCount : Nat
  removeCount : Nat
  deriving DecidableEq

/-- State when event processing begins: `mqttClient.on("message", handleRes)`
has run (one listener attached), nothing has settled. -/
def initAckState : AckState :=
  { done := false, listenerOn := true, settled := none,
    attachCount := 1, removeCount := 0 }

/-- `cleanup()`: if not yet done, set `done` and remove the listener. -/
def cleanupS (s : AckState) : AckState :=
  if s.done then s
  else { s with done := true, listenerOn := false,
                removeCount := s.removeCount + 1 }

/-- A resolve/reject call on the promise: a JS promise keeps only the
first settlement, later calls are no-ops. -/
def trySettle (s : AckState) (o : Outcome) : AckState :=
  if s.settled.isSome then s else { s with settled := some o }

/-- Events delivered to one `publishWithAck` call after its setup:
an inbound transport message, the 15-second timer firing, or the publish
callback reporting a transport error. -/
inductive AckEvent where
  | response (topic : String) (m : InMsg)
  | timeout
  | pubErr

/-- One event step, mirroring the three callbacks of `publishWithAck`:
`handleRes` runs only while the listener is registered and, on a match,
does `cleanup(); callback(undefined, bodies); resolve(bodies)`;
the timeout callback returns early when `done` and otherwise does
`cleanup(); callback(err); reject(err)`; the publish-error callback does
`cleanup(); callback(err); reject(err)` with no `done` guard. -/
def stepAck (reqID : Int) (text : String) (s : AckState) (e : AckEvent) :
    AckState :=
  match e with
  | .response topic m =>
    if s.listenerOn then
      match handleRes reqID text topic m with
      | some b => trySettle (cleanupS s) (.ok b)
      | none => s
    else s
  | .timeout => if s.done then s else trySettle (cleanupS s) .errTimeout
  | .pubErr => trySettle (cleanupS s) .errPublish

/-- Run one call's state over a list of events. -/
def runAck (reqID : Int) (text : String) (tr : List AckEvent) : AckState :=
  tr.foldl (stepAck reqID text) initAckState

/-- The transport operations `publishWithAck` performs synchronously at
setup, in source order. -/
inductive TransportOp where
  | onMessage
  | publish
  | setTimer
  deriving DecidableEq, BEq

/-- The synchronous setup sequence of `publishWithAck`:
`mqttClient.on("message", handleRes)`, then
`mqttClient.publish("/ls_req", ...)`, then `setTimeout(..., 15000)`. -/
def publishWithAckSetup : List TransportOp :=
  [.onMessage, .publish, .setTimer]

/-! ## `sendMention` entry point -/

/-- The runtime value of the `msg` argument after `utils.getType`: a string,
an object, or any other type (carrying the type name for the error text). -/
inductive MsgVal where
  | str (s : String)
  | obj (o : MsgObj)
  | other (typeName : String)
  deriving DecidableEq

/-- `reply_metadata` added when `replyToMessage` is given. -/
structure ReplyMetadata where
  reply_source_id : String
  reply_source_type : Int
  reply_type : Int
  deriving DecidableEq

/-- The task-46 payload (`payload0`). -/
structure Payload0 where
  thread_id : String
  otid : String
  source : Int
  send_type : Int
  sync_group : Int
  mark_thread_read : Int
  text : Option String
  initiating_source : Int
  skip_url_preview_gen : Int
  text_has_links : Int
  multitab_env : Int
  metadata_dataclass : String
  mention_data : MentionData
  reply_metadata : Option ReplyMetadata
  deriving DecidableEq

/-- A task payload: the send task (label "46") or the mark-read task
(label "21"). -/
inductive TaskPayload where
  | send (p : Payload0)
  | markRead (thread_id : String) (last_read_watermark_ts : Int) (sync_group : Int)
  deriving DecidableEq

/-- One task descriptor of the envelope. -/
structure MTask where
  label : String
  payload : TaskPayload
  queue_name : String
  task_id : Int
  failure_count : Option Int
  deriving DecidableEq

/-- The `content.payload` object (kept structured; `JSON.stringify` of the
task payloads and of this object is not modelled). -/
structure ContentPayload where
  tasks : List MTask
  epoch_id : String
  version_id : String
  data_trace_id : String
  deriving DecidableEq

/-- The outbound envelope `content`. -/
structure Content where
  app_id : String
  payload : ContentPayload
  request_id : Int
  type : Int
  deriving DecidableEq

/-- How a `sendMention` call ends: a thrown not-connected error, the
threadID-is-a-function error, a synchronous callback error (nothing
published), delegation to `api.sendMessage` (attachment path), or reaching
`publishWithAck` with the built envelope. -/
inductive SendOutcome where
  | thrownNotConnected
  | threadIDErr
  | cbError (e : String)
  | delegated (m : MsgObj) (threadID : String) (replyTo : Option String)
  | published (c : Content)
  deriving DecidableEq

/-- `reqID = Math.floor(100 + Math.random() * 900)`, with the `Math.random()`
draw `r` as an oracle parameter. -/
def mkReqID (r : ℚ) : Int :=
  Int.floor ((100 : ℚ) + r * 900)

/-- The check `!m.mentions || !Array.isArray(m.mentions) || m.mentions.length === 0`. -/
def mentionsInvalid (f : MentionsField) : Bool :=
  match f with
  | .arr l => l.isEmpty
  | _ => true

/-- Build the outbound envelope `content` from the validated inputs
(`now` is `Date.now()`, `otid` the generated offline threading id,
`dataTrace` the random part of `data_trace_id`). -/
def mkContent (threadID : String) (md : MentionData) (baseBody : String)
    (replyTo : Option String) (reqID : Int) (now : Int)
    (otid dataTrace : String) : Content :=
  let payload0 : Payload0 := {
    thread_id := threadID,
    otid := otid,
    source := 2097153,
    send_type := 1,
    sync_group := 1,
    mark_thread_read := 1,
    text := if baseBody = "" then none else some baseBody,
    initiating_source := 0,
    skip_url_preview_gen := 0,
    text_has_links := if jsHasLinks baseBody then 1 else 0,
    multitab_env := 0,
    metadata_dataclass := "\x7b\"media_accessibility_metadata\":\x7b\"alt_text\":null\x7d\x7d",
    mention_data := md,
    reply_metadata := replyTo.map (fun rid =>
      { reply_source_id := rid, reply_source_type := 1, reply_type := 0 }) }
  { app_id := "2220391788200892",
    payload := {
      tasks := [
        { label := "46", payload := .send payload0, queue_name := threadID,
          task_id := 400, failure_count := none },
        { label := "21", payload := .markRead threadID now 1,
          queue_name := threadID, task_id := 401, failure_count := none }],
      epoch_id := toString (now * 4194304),
      version_id := "24804310205905615",
      data_trace_id := "#" ++ dataTrace },
    request_id := reqID,
    type := 3 }

/-- The body of `sendMention` from the attachment check onward, on the
coerced message object `m`. -/
def sendMentionBody (hasSendMessage : Bool) (threadID : String)
    (replyTo : Option String) (r : ℚ) (now : Int) (otid dataTrace : String)
    (m : MsgObj) : SendOutcome :=
  let baseBody := m.body.getD ""
  if m.attachment.isSome then
    if hasSendMessage then
      .delegated { m with mentions := .missing } threadID replyTo
    else
      .cbError "sendMessage API not available. Cannot send attachment."
  else if mentionsInvalid m.mentions then
    .cbError "sendMention requires mentions array. Use sendMessage for messages without mentions."
  else
    match buildMentionData m baseBody with
    | none => .cbError "Failed to build mention data. Check mentions format."
    | some md =>
      .published (mkContent threadID md baseBody replyTo (mkReqID r) now otid dataTrace)

/-- `sendMention`: connection precondition, threadID-as-function check,
message type check, string-to-object coercion, then `sendMentionBody`.
(The callback/replyToMessage argument shuffling is about JS calling
conventions and is represented by the already-normalized `replyTo`.) -/
def sendMention (connected hasSendMessage : Bool) (msg : MsgVal)
    (threadID : String) (threadIDIsFn : Bool) (replyTo : Option String)
    (r : ℚ) (now : Int) (otid dataTrace : String) : SendOutcome :=
  if ¬connected then .thrownNotConnected
  else if threadIDIsFn then .threadIDErr
  else
    match msg with
    | .other t =>
      .cbError ("Message should be of type string or object and not " ++ t ++ ".")
    | .str s =>
      sendMentionBody hasSendMessage threadID replyTo r now otid dataTrace
        { body := some s, attachment := none, mentions := .missing }
    | .obj o =>
      sendMentionBody hasSendMessage threadID replyTo r now otid dataTrace o

/-- The range property of the published correlation identifier, stated over
an arbitrary call outcome: whenever an envelope is published, its
`request_id` lies in `[100, 999]`. -/
def requestIdOk : SendOutcome → Prop
  | .published c => 100 ≤ c.request_id ∧ c.request_id ≤ 999
  | _ => True

/-! ## Lemmas about the correlator state machine -/

theorem cleanupS_settled (s : AckState) : (cleanupS s).settled = s.settled := by
  unfold cleanupS; split <;> rfl

theorem cleanupS_done (s : AckState) : (cleanupS s).done = true := by
  unfold cleanupS; split
  · assumption
  · rfl

theorem trySettle_done (s : AckState) (o : Outcome) :
    (trySettle s o).done = s.done := by
  unfold trySettle; split <;> rfl

theorem trySettle_settled_of_some (s : AckState) (o o' : Outcome)
    (h : s.settled = some o) : (trySettle s o').settled = some o := by
  simp [trySettle, h]

theorem settle_after_cleanup_settled (s : AckState) (o o' : Outcome)
    (h : s.settled = some o) :
    (trySettle (cleanupS s) o').settled = some o := by
  have hc : (cleanupS s).settled = some o := by rw [cleanupS_settled]; exact h
  exact trySettle_settled_of_some _ _ _ hc

theorem stepAck_settled_mono (reqID : Int) (text : String) (s : AckState)
    (e : AckEvent) (o : Outcome) (h : s.settled = some o) :
    (stepAck reqID text s e).settled = some o := by
  cases e with
  | response topic m =>
    simp only [stepAck]
    split
    · split
      · exact settle_after_cleanup_settled _ _ _ h
      · exact h
    · exact h
  | timeout =>
    simp only [stepAck]
    split
    · exact h
    · exact settle_after_cleanup_settled _ _ _ h
  | pubErr =>
    exact settle_after_cleanup_settled _ _ _ h

theorem foldl_stepAck_settled_mono (reqID : Int) (text : String) :
    ∀ (tr : List AckEvent) (s : AckState) (o : Outcome),
      s.settled = some o →
      (tr.foldl (stepAck reqID text) s).settled = some o := by
  intro tr
  induction tr with
  | nil => intro s o h; exact h
  | cons e rest ih =>
    intro s o h
    exact ih _ _ (stepAck_settled_mono reqID text s e o h)

theorem stepAck_done_mono (reqID : Int) (text : String) (s : AckState)
    (e : AckEvent) (h : s.done = true) :
    (stepAck reqID text s e).done = true := by
  cases e with
  | response topic m =>
    simp only [stepAck]
    split
    · split
      · rw [trySettle_done, cleanupS_done]
      · exact h
    · exact h
  | timeout =>
    simp [stepAck, h]
  | pubErr =>
    show (trySettle (cleanupS s) .errPublish).done = true
    rw [trySettle_done, cleanupS_done]

theorem foldl_stepAck_done_mono (reqID : Int) (text : String) :
    ∀ (tr : List AckEvent) (s : AckState),
      s.done = true → (tr.foldl (stepAck reqID text) s).done = true := by
  intro tr
  induction tr with
  | nil => intro s h; exact h
  | cons e rest ih =>
    intro s h
    exact ih _ (stepAck_done_mono reqID text s e h)

theorem stepAck_timeout_done (reqID : Int) (text : String) (s : AckState) :
    (stepAck reqID text s .timeout).done = true := by
  simp only [stepAck]
  split
  · assumption
  · rw [trySettle_done, cleanupS_done]

/-- The per-call invariant: the listener is registered exactly while the
call is not done, the attach counter stays at its setup value 1, the
remove counter tracks `done`, and a settled promise implies `done`. -/
def AckInv (s : AckState) : Prop :=
  s.listenerOn = !s.done ∧ s.attachCount = 1 ∧
    s.removeCount = (if s.done then 1 else 0) ∧
    (s.settled.isSome → s.done = true)

theorem ackInv_init : AckInv initAckState := by
  refine ⟨rfl, rfl, rfl, ?_⟩
  intro h
  simp [initAckState] at h

theorem ackInv_cleanupS (s : AckState) (h : AckInv s) : AckInv (cleanupS s) := by
  obtain ⟨h1, h2, h3, h4⟩ := h
  unfold cleanupS
  split
  · exact ⟨h1, h2, h3, h4⟩
  · rename_i hd
    refine ⟨by simp, h2, ?_, fun _ => rfl⟩
    simp only [if_pos rfl]
    have : s.done = false := by
      cases hsd : s.done
      · rfl
      · exact absurd hsd hd
    rw [this] at h3
    simpa using h3

theorem ackInv_trySettle (s : AckState) (o : Outcome)
    (hd : s.done = true) (h : AckInv s) : AckInv (trySettle s o) := by
  obtain ⟨h1, h2, h3, h4⟩ := h
  unfold trySettle
  split
  · exact ⟨h1, h2, h3, h4⟩
  · exact ⟨h1, h2, h3, fun _ => hd⟩

theorem ackInv_stepAck (reqID : Int) (text : String) (s : AckState)
    (e : AckEvent) (h : AckInv s) : AckInv (stepAck reqID text s e) := by
  cases e with
  | response topic m =>
    simp only [stepAck]
    split
    · split
      · exact ackInv_trySettle _ _ (cleanupS_done s) (ackInv_cleanupS s h)
      · exact h
    · exact h
  | timeout =>
    simp only [stepAck]
    split
    · exact h
    · exact ackInv_trySettle _ _ (cleanupS_done s) (ackInv_cleanupS s h)
  | pubErr =>
    exact ackInv_trySettle _ _ (cleanupS_done s) (ackInv_cleanupS s h)

theorem ackInv_foldl (reqID : Int) (text : String) :
    ∀ (tr : List AckEvent) (s : AckState), AckInv s →
      AckInv (tr.foldl (stepAck reqID text) s) := by
  intro tr
  induction tr with
  | nil => intro s h; exact h
  | cons e rest ih =>
    intro s h
    exact ih _ (ackInv_stepAck reqID text s e h)

theorem ackInv_runAck (reqID : Int) (text : String) (tr : List AckEvent) :
    AckInv (runAck reqID text tr) :=
  ackInv_foldl reqID text tr initAckState ackInv_init

theorem runAck_append (reqID : Int) (text : String)
    (pre post : List AckEvent) :
    runAck reqID text (pre ++ post) =
      post.foldl (stepAck reqID text) (runAck reqID text pre) := by
  unfold runAck
  exact List.foldl_append _ _ _ _

/-! ## Lemmas about the mention-offset resolver -/

theorem occursAt_length {s pat : List Char} {i : Nat}
    (h : occursAt s pat i = true) : pat.length + i ≤ s.length ∨ pat = [] := by
  unfold occursAt at h
  have he := of_decide_eq_true h
  rcases Nat.eq_zero_or_pos pat.length with hz | hp
  · right
    exact List.length_eq_zero.mp hz
  · left
    have hlen := congrArg List.length he
    rw [List.length_take, List.length_drop] at hlen
    omega

theorem jsIndexOfFrom_some {s pat : List Char} {start i : Nat}
    (h : jsIndexOfFrom s pat start = some i) :
    min start s.length ≤ i ∧ occursAt s pat i = true := by
  unfold jsIndexOfFrom at h
  have hp := List.find?_some h
  rw [Bool.and_eq_true] at hp
  exact ⟨of_decide_eq_true hp.1, hp.2⟩

theorem jsIndexOfFrom_start_le {s pat : List Char} {start i : Nat}
    (hpat : pat ≠ []) (h : jsIndexOfFrom s pat start = some i) : start ≤ i := by
  obtain ⟨hmin, hocc⟩ := jsIndexOfFrom_some h
  rcases occursAt_length hocc with hlen | hnil
  · have hp : 0 < pat.length := List.length_pos.mpr hpat
    omega
  · exact absurd hnil hpat

theorem jsTrim_length_le (l : List Char) : (jsTrim l).length ≤ l.length := by
  unfold jsTrim
  rw [List.length_reverse]
  calc ((l.dropWhile isJsSpace).reverse.dropWhile isJsSpace).length
      ≤ (l.dropWhile isJsSpace).reverse.length := (List.dropWhile_sublist _).length_le
    _ = (l.dropWhile isJsSpace).length := List.length_reverse _
    _ ≤ l.length := (List.dropWhile_sublist _).length_le

theorem mentionName_length_le (m : Mention) :
    (mentionName m).2.length ≤ (mentionName m).1.length := by
  unfold mentionName
  calc (jsTrim ((jsTrim (m.tag.getD "").data).dropWhile (fun c => c = '@'))).length
      ≤ ((jsTrim (m.tag.getD "").data).dropWhile (fun c => c = '@')).length :=
        jsTrim_length_le _
    _ ≤ (jsTrim (m.tag.getD "").data).length := (List.dropWhile_sublist _).length_le

theorem mentionName_raw_ne_nil (m : Mention) (h : (mentionName m).2 ≠ []) :
    (mentionName m).1 ≠ [] := by
  intro hraw
  apply h
  have : (mentionName m).2.length ≤ (mentionName m).1.length :=
    mentionName_length_le m
  rw [hraw] at this
  simp at this
  exact this

/-- When a mention has no `fromIndex` and its bare `name` occurs in the body
at or after the cursor, the strategy chain resolves at or after the cursor:
either strategy 1 hits (at `idx ≥ cursor`, with `adj ≥ 0`) or strategy 2
hits (at `idx ≥ cursor`, `adj = 0`). -/
theorem resolveIdxAdj_forward (base raw name : List Char) (cursor : Nat)
    (hname : name ≠ []) (hlen : name.length ≤ raw.length)
    (hfwd : (jsIndexOfFrom base name cursor).isSome = true) :
    (cursor : Int) ≤ (resolveIdxAdj base raw name (cursor : Int) cursor).1 +
      (resolveIdxAdj base raw name (cursor : Int) cursor).2 := by
  have hraw : raw ≠ [] := by
    intro hr
    apply hname
    have := hlen
    rw [hr] at this
    simp at this
    exact this
  have hclamp : ((cursor : Int)).toNat = cursor := Int.toNat_natCast cursor
  unfold resolveIdxAdj
  rcases hs1 : (if raw.head? = some '@' then
      jsIndexOfFrom base raw ((cursor : Int)).toNat else none) with _ | i1
  · rcases hs2 : jsIndexOfFrom base name ((cursor : Int)).toNat with _ | i2
    · rw [hclamp] at hs2
      rw [hs2] at hfwd
      simp at hfwd
    · have hge : cursor ≤ i2 := by
        rw [hclamp] at hs2
        exact jsIndexOfFrom_start_le hname hs2
      simp only []
      omega
  · have hfound : jsIndexOfFrom base raw ((cursor : Int)).toNat = some i1 := by
      by_cases hat : raw.head? = some '@'
      · rw [if_pos hat] at hs1
        exact hs1
      · rw [if_neg hat] at hs1
        exact absurd hs1 (by simp)
    have hge : cursor ≤ i1 := by
      rw [hclamp] at hfound
      exact jsIndexOfFrom_start_le hraw hfound
    simp only []
    have : (name.length : Int) ≤ (raw.length : Int) := by exact_mod_cast hlen
    omega

/-- The amended hypothesis for offset monotonicity, mirroring the loop:
every mention that is not skipped has no `fromIndex` and its bare name
occurs in the body at or after the running cursor (so the backward
`lastIndexOf` fallback is never taken). -/
def forwardResolvable (base : List Char) : List Mention → Nat → Bool
  | [], _ => true
  | m :: rest, cursor =>
    let rn := mentionName m
    let raw := rn.1
    let name := rn.2
    if name.isEmpty then forwardResolvable base rest cursor
    else
      m.fromIndex.isNone && (jsIndexOfFrom base name cursor).isSome &&
        (let ia := resolveIdxAdj base raw name (cursor : Int) cursor
         let off := (max 0 (ia.1 + ia.2)).toNat
         forwardResolvable base rest (off + name.length))

theorem chain_le_of_le {a b : Nat} {l : List Nat}
    (h : List.Chain (· ≤ ·) b l) (hab : a ≤ b) : List.Chain (· ≤ ·) a l := by
  cases l with
  | nil => exact List.Chain.nil
  | cons x t =>
    rw [List.chain_cons] at h ⊢
    exact ⟨le_trans hab h.1, h.2⟩

theorem buildTriples_chain (base : List Char) :
    ∀ (ms : List Mention) (cursor : Nat),
      forwardResolvable base ms cursor = true →
      List.Chain (· ≤ ·) cursor ((buildTriples base ms cursor).map (fun t => t.2.1)) := by
  intro ms
  induction ms with
  | nil =>
    intro cursor _
    exact List.Chain.nil
  | cons m rest ih =>
    intro cursor hfr
    unfold forwardResolvable at hfr
    unfold buildTriples
    by_cases hne : (mentionName m).2.isEmpty
    · rw [if_pos hne] at hfr ⊢
      exact ih cursor hfr
    · rw [if_neg hne] at hfr ⊢
      rw [Bool.and_eq_true, Bool.and_eq_true] at hfr
      obtain ⟨⟨hfi, hfwd⟩, hrest⟩ := hfr
      have hfi' : m.fromIndex = none := Option.isNone_iff_eq_none.mp hfi
      have hname : (mentionName m).2 ≠ [] := by
        intro hn
        apply hne
        rw [hn]
        rfl
      have hoff : (cursor : Int) ≤
          (resolveIdxAdj base (mentionName m).1 (mentionName m).2 (cursor : Int) cursor).1 +
          (resolveIdxAdj base (mentionName m).1 (mentionName m).2 (cursor : Int) cursor).2 :=
        resolveIdxAdj_forward base (mentionName m).1 (mentionName m).2 cursor
          hname (mentionName_length_le m) hfwd
      rw [hfi']
      simp only [List.map_cons]
      set ia := resolveIdxAdj base (mentionName m).1 (mentionName m).2 (cursor : Int) cursor
        with hia
    -- the computed offset is at or after the cursor
      have hcur_le : cursor ≤ (max 0 (ia.1 + ia.2)).toNat := by omega
      rw [List.chain_cons]
      refine ⟨hcur_le, ?_⟩
      have htail := ih ((max 0 (ia.1 + ia.2)).toNat + (mentionName m).2.length) hrest
      exact chain_le_of_le htail (Nat.le_add_right _ _)

theorem chain_imp_chain_tail {a : Nat} {l : List Nat}
    (h : List.Chain (· ≤ ·) a l) : List.Chain' (· ≤ ·) l := by
  cases l with
  | nil => simp
  | cons x t =>
    rw [List.chain_cons] at h
    exact h.2

/-! ## Claim theorems -/

/-- C1 (counterexample): for body `"hello @Alice bye"` and the single
mention `{tag:"@Alice", id:"1"}` without `fromIndex`, `buildMentionData`
does not produce `mention_offsets = "6"` as claimed: strategy 1 finds
`"@Alice"` at index 6 and then adds `adj = raw.length - name.length = 1`,
so the produced offset string is `"7"`. -/
theorem buildMentionData_example_offset_ne_six :
    (buildMentionData
      { body := some "hello @Alice bye", attachment := none,
        mentions := .arr [{ tag := some "@Alice", id := some "1", fromIndex := none }] }
      "hello @Alice bye").map MentionData.mention_offsets ≠ some "6" ∧
    (buildMentionData
      { body := some "hello @Alice bye", attachment := none,
        mentions := .arr [{ tag := some "@Alice", id := some "1", fromIndex := none }] }
      "hello @Alice bye").map MentionData.mention_offsets = some "7" := by
  decide

/-- C1 (amended): for body `"hello @Alice bye"` and the single mention
`{tag:"@Alice", id:"1"}` without `fromIndex`, `buildMentionData` resolves
the mention to character offset 7 (the start of the bare name `Alice`,
just past the `@`) and length 5: the full result is
`{ids := "1", offsets := "7", lengths := "5", types := "p"}`. -/
theorem buildMentionData_example_offset_seven :
    buildMentionData
      { body := some "hello @Alice bye", attachment := none,
        mentions := .arr [{ tag := some "@Alice", id := some "1", fromIndex := none }] }
      "hello @Alice bye" =
      some { mention_ids := "1", mention_offsets := "7",
             mention_lengths := "5", mention_types := "p" } := by
  decide

/-- A frame on the response channel that is to be skipped: it fails one of
the two decode stages, or carries a `request_id` different from the
caller's. -/
def skipFrame (reqID : Int) : InMsg → Prop
  | .badOuter => True
  | .badPayload => True
  | .ok rid _ => rid ≠ reqID

/-- C2: every inbound message on the response channel that fails either
JSON decode stage or whose `request_id` differs from the caller's
correlation identifier settles nothing: `handleRes` returns no settlement,
and the call state is left entirely unchanged (silently skipped, no error
surfaced). -/
theorem handleRes_skips_unmatched (reqID : Int) (text : String) (m : InMsg)
    (h : skipFrame reqID m) :
    handleRes reqID text "/ls_resp" m = none ∧
      ∀ s : AckState, stepAck reqID text s (.response "/ls_resp" m) = s := by
  have hnone : handleRes reqID text "/ls_resp" m = none := by
    cases m with
    | badOuter => rfl
    | badPayload => rfl
    | ok rid payload =>
      have hrid : rid ≠ reqID := h
      simp [handleRes, hrid]
  refine ⟨hnone, ?_⟩
  intro s
  simp only [stepAck]
  rw [hnone]
  split <;> rfl

/-- C2 witness: a frame whose outer decode fails is skipped and leaves the
freshly set-up call state untouched. -/
theorem handleRes_skips_unmatched_witness :
    handleRes 123 "" "/ls_resp" InMsg.badOuter = none ∧
      stepAck 123 "" initAckState (.response "/ls_resp" InMsg.badOuter) =
        initAckState := by
  have h := handleRes_skips_unmatched 123 "" InMsg.badOuter trivial
  exact ⟨h.1, h.2 initAckState⟩

/-- C3: the deferred result of a `publishWithAck` call settles at most
once: once settled with outcome `o`, any further events (responses,
timeout, publish error, in any order) leave it settled with the same `o`;
moreover after the timeout event has run, the listener has been removed,
so an inbound response — matching or not — leaves the entire call state
unchanged (a late response cannot settle the already-failed result). -/
theorem publishWithAck_at_most_once (reqID : Int) (text : String)
    (pre post : List AckEvent) :
    (∀ o : Outcome, (runAck reqID text pre).settled = some o →
      (runAck reqID text (pre ++ post)).settled = some o) ∧
    (∀ (topic : String) (m : InMsg),
      stepAck reqID text (runAck reqID text (pre ++ [AckEvent.timeout]))
        (.response topic m) = runAck reqID text (pre ++ [AckEvent.timeout])) := by
  constructor
  · intro o h
    rw [runAck_append]
    exact foldl_stepAck_settled_mono reqID text post _ o h
  · intro topic m
    have hdone : (runAck reqID text (pre ++ [AckEvent.timeout])).done = true := by
      rw [runAck_append]
      show (stepAck reqID text (runAck reqID text pre) .timeout).done = true
      exact stepAck_timeout_done reqID text _
    have hinv := ackInv_runAck reqID text (pre ++ [AckEvent.timeout])
    have hlo : (runAck reqID text (pre ++ [AckEvent.timeout])).listenerOn = false := by
      rw [hinv.1, hdone]
      rfl
    simp only [stepAck]
    rw [hlo]
    simp

/-- C3 witness: after the timeout has rejected, a publish error does not
change the settlement, and a response frame leaves the state unchanged. -/
theorem publishWithAck_at_most_once_witness :
    (runAck 1 "" ([AckEvent.timeout] ++ [AckEvent.pubErr])).settled =
      some Outcome.errTimeout ∧
    stepAck 1 "" (runAck 1 "" ([AckEvent.timeout] ++ [AckEvent.timeout]))
        (.response "/ls_resp" InMsg.badOuter) =
      runAck 1 "" ([AckEvent.timeout] ++ [AckEvent.timeout]) := by
  have h := publishWithAck_at_most_once 1 "" [AckEvent.timeout] [AckEvent.pubErr]
  exact ⟨h.1 Outcome.errTimeout (by decide), h.2 "/ls_resp" InMsg.badOuter⟩

/-- C4: listener accounting for one `publishWithAck` call: exactly one
listener is attached (at setup), at most one is ever removed, and on every
exit path — a settlement (first matching response or publish error) or the
timeout — exactly one is removed, so no listener leaks. -/
theorem publishWithAck_listener_balance (reqID : Int) (text : String)
    (tr : List AckEvent) :
    (runAck reqID text tr).attachCount = 1 ∧
    (runAck reqID text tr).removeCount ≤ 1 ∧
    (((runAck reqID text tr).settled.isSome = true ∨ AckEvent.timeout ∈ tr) →
      (runAck reqID text tr).removeCount = 1) := by
  obtain ⟨h1, h2, h3, h4⟩ := ackInv_runAck reqID text tr
  refine ⟨h2, ?_, ?_⟩
  · rw [h3]
    split <;> simp
  · intro hcase
    have hdone : (runAck reqID text tr).done = true := by
      rcases hcase with hs | hmem
      · exact h4 hs
      · obtain ⟨l1, l2, rfl⟩ := List.append_of_mem hmem
        rw [runAck_append]
        show ((AckEvent.timeout :: l2).foldl (stepAck reqID text)
          (runAck reqID text l1)).done = true
        rw [List.foldl_cons]
        exact foldl_stepAck_done_mono reqID text l2 _
          (stepAck_timeout_done reqID text _)
    simp [h3, hdone]

/-- C4 witness: a call that only times out attached one listener and
removed exactly one. -/
theorem publishWithAck_listener_balance_witness :
    (runAck 2 "" [AckEvent.timeout]).attachCount = 1 ∧
    (runAck 2 "" [AckEvent.timeout]).removeCount ≤ 1 ∧
    (runAck 2 "" [AckEvent.timeout]).removeCount = 1 := by
  have h := publishWithAck_listener_balance 2 "" [AckEvent.timeout]
  exact ⟨h.1, h.2.1, h.2.2 (Or.inr (List.mem_singleton.mpr rfl))⟩

/-- C5 (counterexample): the claim fails on the code. With body
`"Alice Bob"` and mentions `[{tag:"Bob"}, {tag:"Alice"}]` — both bare
names locatable in the body — the second mention is only searched forward
of the cursor (which sits past `"Bob"`), every forward strategy misses,
and the `lastIndexOf` fallback resolves it backwards to offset 0: the
produced offsets are `"6,0"`, which is decreasing. -/
theorem buildMentionData_offsets_not_monotone_cex :
    ((jsIndexOfFrom "Alice Bob".data "Bob".data 0).isSome = true ∧
     (jsIndexOfFrom "Alice Bob".data "Alice".data 0).isSome = true) ∧
    (buildMentionData
      { body := some "Alice Bob", attachment := none,
        mentions := .arr [{ tag := some "Bob", id := some "2", fromIndex := none },
                          { tag := some "Alice", id := some "1", fromIndex := none }] }
      "Alice Bob").map MentionData.mention_offsets = some "6,0" ∧
    ¬ List.Chain' (· ≤ ·)
        ((buildTriples "Alice Bob".data
          [{ tag := some "Bob", id := some "2", fromIndex := none },
           { tag := some "Alice", id := some "1", fromIndex := none }] 0).map
          (fun t => t.2.1)) := by
  refine ⟨by decide, by decide, ?_⟩
  have hoff : (buildTriples "Alice Bob".data
      [{ tag := some "Bob", id := some "2", fromIndex := none },
       { tag := some "Alice", id := some "1", fromIndex := none }] 0).map
      (fun t => t.2.1) = [6, 0] := by decide
  rw [hoff]
  intro hc
  rw [List.chain'_cons] at hc
  exact absurd hc.1 (by omega)

/-- C5 (amended): the offsets produced by the mention loop of
`buildMentionData` are non-decreasing across the mentions list in input
order, provided each non-skipped mention has no `fromIndex` and its bare
name is locatable at or after the running cursor (`forwardResolvable`),
i.e. whenever the backward `lastIndexOf` fallback is never taken. -/
theorem buildTriples_offsets_monotone_forward (base : List Char)
    (ms : List Mention) (h : forwardResolvable base ms 0 = true) :
    List.Chain' (· ≤ ·) ((buildTriples base ms 0).map (fun t => t.2.1)) :=
  chain_imp_chain_tail (buildTriples_chain base ms 0 h)

/-- C5 witness: for body `"Al Bo"` and mentions `[@Al, Bo]` the hypothesis
holds and the produced offsets are non-decreasing. -/
theorem buildTriples_offsets_monotone_forward_witness :
    List.Chain' (· ≤ ·)
      ((buildTriples "Al Bo".data
        [{ tag := some "@Al", id := some "1", fromIndex := none },
         { tag := some "Bo", id := some "2", fromIndex := none }] 0).map
        (fun t => t.2.1)) :=
  buildTriples_offsets_monotone_forward "Al Bo".data
    [{ tag := some "@Al", id := some "1", fromIndex := none },
     { tag := some "Bo", id := some "2", fromIndex := none }] (by decide)

/-- C6: for a single `publishWithAck` call, transport publish failure and
timeout are mutually exclusive outcomes: if the call has settled with the
publish error, a later timeout event (and anything after it) leaves it
settled with the publish error, and if it has settled with the timeout
error, a later publish-error event leaves it settled with the timeout
error — whichever occurs first suppresses the other, and the deferred
result is never rejected with both. -/
theorem publish_error_timeout_exclusive (reqID : Int) (text : String)
    (pre post : List AckEvent) :
    ((runAck reqID text pre).settled = some Outcome.errPublish →
      (runAck reqID text (pre ++ AckEvent.timeout :: post)).settled =
        some Outcome.errPublish) ∧
    ((runAck reqID text pre).settled = some Outcome.errTimeout →
      (runAck reqID text (pre ++ AckEvent.pubErr :: post)).settled =
        some Outcome.errTimeout) := by
  constructor <;> intro h <;> rw [runAck_append] <;>
    exact foldl_stepAck_settled_mono _ _ _ _ _ h

/-- C6 witness: a publish error followed by the timeout stays a publish
error, and a timeout followed by a publish error stays a timeout. -/
theorem publish_error_timeout_exclusive_witness :
    (runAck 3 "" ([AckEvent.pubErr] ++ AckEvent.timeout :: [])).settled =
      some Outcome.errPublish ∧
    (runAck 3 "" ([AckEvent.timeout] ++ AckEvent.pubErr :: [])).settled =
      some Outcome.errTimeout :=
  ⟨(publish_error_timeout_exclusive 3 "" [AckEvent.pubErr] []).1 (by decide),
   (publish_error_timeout_exclusive 3 "" [AckEvent.timeout] []).2 (by decide)⟩

/-- C7: with no attachment and a `mentions` field that is missing, not an
array, or empty, `sendMention` reports the validation error synchronously
through the callback and nothing is ever published for that call (the
outcome is `cbError`, not `published`); a plain-string message (whose
coerced object has no `mentions`) fails the same way. -/
theorem sendMention_mentions_validation (hsm : Bool) (o : MsgObj)
    (threadID : String) (replyTo : Option String) (r : ℚ) (now : Int)
    (otid dataTrace : String)
    (hAtt : o.attachment = none) (hMen : mentionsInvalid o.mentions = true) :
    sendMention true hsm (.obj o) threadID false replyTo r now otid dataTrace =
      .cbError "sendMention requires mentions array. Use sendMessage for messages without mentions." ∧
    ∀ s : String,
      sendMention true hsm (.str s) threadID false replyTo r now otid dataTrace =
      .cbError "sendMention requires mentions array. Use sendMessage for messages without mentions." := by
  constructor
  · simp [sendMention, sendMentionBody, hAtt, hMen]
  · intro s
    simp [sendMention, sendMentionBody, mentionsInvalid]

/-- C7 witness: an empty mentions array with no attachment fails with the
validation error. -/
theorem sendMention_mentions_validation_witness :
    sendMention true true
      (.obj { body := some "hi", attachment := none, mentions := .arr [] })
      "100" false none 0 0 "otid" "trace" =
      .cbError "sendMention requires mentions array. Use sendMessage for messages without mentions." :=
  (sendMention_mentions_validation true
    { body := some "hi", attachment := none, mentions := .arr [] }
    "100" none 0 0 "otid" "trace" rfl rfl).1

/-- C8: in `publishWithAck` the response-channel listener is registered
strictly before the envelope is published on the request channel (and at
the point event processing starts, the listener is attached), so a
response cannot arrive before a listener exists. -/
theorem listener_before_publish :
    publishWithAckSetup.indexOf TransportOp.onMessage <
      publishWithAckSetup.indexOf TransportOp.publish ∧
    initAckState.listenerOn = true := by
  decide

/-- The floor of `100 + r * 900` lies in `[100, 999]` for `0 ≤ r < 1`. -/
theorem mkReqID_range (r : ℚ) (h0 : 0 ≤ r) (h1 : r < 1) :
    100 ≤ mkReqID r ∧ mkReqID r ≤ 999 := by
  unfold mkReqID
  constructor
  · have h : ((100 : Int) : ℚ) ≤ 100 + r * 900 := by
      push_cast
      nlinarith
    exact Int.le_floor.mpr h
  · have h : (100 : ℚ) + r * 900 < ((1000 : Int) : ℚ) := by
      push_cast
      nlinarith
    have hf := Int.floor_lt.mpr h
    omega

/-- C9: whenever a `sendMention` call reaches the publish step, the
correlation identifier attached to the outbound envelope
(`content.request_id = Math.floor(100 + Math.random() * 900)`) is an
integer in the range 100 to 999 inclusive. -/
theorem request_id_range (connected hsm : Bool) (msg : MsgVal)
    (threadID : String) (fn : Bool) (replyTo : Option String) (r : ℚ)
    (now : Int) (otid dataTrace : String) (h0 : 0 ≤ r) (h1 : r < 1) :
    requestIdOk (sendMention connected hsm msg threadID fn replyTo r now otid dataTrace) := by
  have hbody : ∀ m : MsgObj,
      requestIdOk (sendMentionBody hsm threadID replyTo r now otid dataTrace m) := by
    intro m
    simp only [sendMentionBody]
    split
    · split
      · trivial
      · trivial
    · split
      · trivial
      · split
        · trivial
        · exact mkReqID_range r h0 h1
  unfold sendMention
  split
  · trivial
  · split
    · trivial
    · split
      · trivial
      · exact hbody _
      · exact hbody _

/-- C9 witness: a concrete publishing call with `r = 0` satisfies the
range property. -/
theorem request_id_range_witness :
    requestIdOk (sendMention true true
      (.obj { body := some "hi Bob", attachment := none,
              mentions := .arr [{ tag := some "@Bob", id := some "1", fromIndex := none }] })
      "100" false none 0 5 "otid" "trace") :=
  request_id_range true true
    (.obj { body := some "hi Bob", attachment := none,
            mentions := .arr [{ tag := some "@Bob", id := some "1", fromIndex := none }] })
    "100" false none 0 5 "otid" "trace" (by norm_num) (by norm_num)

/-- C10: when the message carries a non-null attachment, `sendMention`
performs no mention validation and publishes nothing itself: it strips the
`mentions` field from a copy of the message and delegates to
`api.sendMessage` when available, and otherwise reports the
"sendMessage API not available" error through the callback. -/
theorem sendMention_attachment_delegates (hsm : Bool) (o : MsgObj)
    (threadID : String) (replyTo : Option String) (r : ℚ) (now : Int)
    (otid dataTrace : String) (a : String) (hAtt : o.attachment = some a) :
    sendMention true hsm (.obj o) threadID false replyTo r now otid dataTrace =
      (if hsm then SendOutcome.delegated { o with mentions := .missing } threadID replyTo
       else SendOutcome.cbError "sendMessage API not available. Cannot send attachment.") := by
  cases hsm <;> simp [sendMention, sendMentionBody, hAtt]

/-- C10 witness: a message with an attachment and a mentions array is
delegated with its mentions stripped, untouched otherwise. -/
theorem sendMention_attachment_delegates_witness :
    sendMention true true
      (.obj { body := some "x", attachment := some "photo",
              mentions := .arr [{ tag := some "@Bob", id := some "1", fromIndex := none }] })
      "7" false none 0 0 "o" "d" =
      SendOutcome.delegated
        { body := some "x", attachment := some "photo", mentions := .missing }
        "7" none := by
  have h := sendMention_attachment_delegates true
    { body := some "x", attachment := some "photo",
      mentions := .arr [{ tag := some "@Bob", id := some "1", fromIndex := none }] }
    "7" none 0 0 "o" "d" "photo" rfl
  simpa using h

end MiraiV3
